import Mathlib

/-!
The register files and main memory of psx-go

A shallow embedding of `cpu/registers.go` and `memory/ram.go`.

* `uint32` and `uint8` values are natural numbers; where the Go code does
  `uint32` arithmetic the result is reduced modulo `2 ^ 32` (`u32`).
* A method with a pointer receiver becomes a function from the receiver's
  state to an outcome holding the state afterwards, what was reported to the
  log, and the returned value (`none` when the call did not return).
* A Go run-time panic on a slice index is the `Except.error` of the memory
  operations, together with the memory as the panic left it.
-/

namespace psx

/-! ## Package `log` (diagnostic sink) -/

/-- Severity of a report handed to the diagnostic sink. -/
inductive Level where
  | warn
  | fatal
deriving DecidableEq, Repr

/-- One report: severity, format string and the values formatted into it. -/
structure Diagnostic where
  level : Level
  format : String
  args : List Nat
deriving DecidableEq, Repr

/-- What one call into the log package does: the report it makes and whether
it aborts the run instead of returning to its caller. -/
structure LogCall where
  diag : Diagnostic
  aborts : Bool
deriving DecidableEq, Repr

/-- Modelled from the spec: `log.Warnf` of package `log`, which is not among
the sources. Spec §6/§7: the sink accepts the severity "advisory (warn,
continue)"; the report is made at warn level and the system continues. -/
def log.Warnf (format : String) (args : List Nat) : LogCall :=
  { diag := { level := Level.warn, format := format, args := args }, aborts := false }

/-- Modelled from the spec: `log.Panicf` of package `log`, which is not among
the sources. Spec §6/§7: the severity "fatal (abort the run)"; the report is
made at fatal level and the run is aborted. -/
def log.Panicf (format : String) (args : List Nat) : LogCall :=
  { diag := { level := Level.fatal, format := format, args := args }, aborts := true }

/-- Outcome of a method call on a receiver of type `σ`: the receiver's state
afterwards, the reports made, and the returned value (`none`: the call was
aborted and returned nothing). -/
structure Outcome (σ α : Type) where
  state : σ
  diags : List Diagnostic
  result : Option α

/-! ## Package `cpu`: general purpose registers -/

/-- The general purpose registers, one `uint32` field per register
(`Registers` of `cpu/registers.go`); the field `at` is written `at_`, `at`
being a keyword here. -/
structure Registers where
  zero : Nat
  at_ : Nat
  v0 : Nat
  v1 : Nat
  a0 : Nat
  a1 : Nat
  a2 : Nat
  a3 : Nat
  t0 : Nat
  t1 : Nat
  t2 : Nat
  t3 : Nat
  t4 : Nat
  t5 : Nat
  t6 : Nat
  t7 : Nat
  s0 : Nat
  s1 : Nat
  s2 : Nat
  s3 : Nat
  s4 : Nat
  s5 : Nat
  s6 : Nat
  s7 : Nat
  t8 : Nat
  t9 : Nat
  k0 : Nat
  k1 : Nat
  gp : Nat
  sp : Nat
  fp : Nat
  ra : Nat
deriving DecidableEq, Repr

/-- The zero value of `Registers` (a Go struct that was only declared). -/
def Registers.init : Registers :=
  { zero := 0, at_ := 0, v0 := 0, v1 := 0, a0 := 0, a1 := 0, a2 := 0, a3 := 0,
    t0 := 0, t1 := 0, t2 := 0, t3 := 0, t4 := 0, t5 := 0, t6 := 0, t7 := 0,
    s0 := 0, s1 := 0, s2 := 0, s3 := 0, s4 := 0, s5 := 0, s6 := 0, s7 := 0,
    t8 := 0, t9 := 0, k0 := 0, k1 := 0, gp := 0, sp := 0, fp := 0, ra := 0 }

/-- `Registers.GetReg`: the field selected by `index`; an index without a
field is reported at warn level and the call returns the `zero` field. -/
def Registers.GetReg (reg : Registers) (index : Nat) : Outcome Registers Nat :=
  match index with
  | 0 => { state := reg, diags := [], result := some reg.zero }
  | 1 => { state := reg, diags := [], result := some reg.at_ }
  | 2 => { state := reg, diags := [], result := some reg.v0 }
  | 3 => { state := reg, diags := [], result := some reg.v1 }
  | 4 => { state := reg, diags := [], result := some reg.a0 }
  | 5 => { state := reg, diags := [], result := some reg.a1 }
  | 6 => { state := reg, diags := [], result := some reg.a2 }
  | 7 => { state := reg, diags := [], result := some reg.a3 }
  | 8 => { state := reg, diags := [], result := some reg.t0 }
  | 9 => { state := reg, diags := [], result := some reg.t1 }
  | 10 => { state := reg, diags := [], result := some reg.t2 }
  | 11 => { state := reg, diags := [], result := some reg.t3 }
  | 12 => { state := reg, diags := [], result := some reg.t4 }
  | 13 => { state := reg, diags := [], result := some reg.t5 }
  | 14 => { state := reg, diags := [], result := some reg.t6 }
  | 15 => { state := reg, diags := [], result := some reg.t7 }
  | 16 => { state := reg, diags := [], result := some reg.s0 }
  | 17 => { state := reg, diags := [], result := some reg.s1 }
  | 18 => { state := reg, diags := [], result := some reg.s2 }
  | 19 => { state := reg, diags := [], result := some reg.s3 }
  | 20 => { state := reg, diags := [], result := some reg.s4 }
  | 21 => { state := reg, diags := [], result := some reg.s5 }
  | 22 => { state := reg, diags := [], result := some reg.s6 }
  | 23 => { state := reg, diags := [], result := some reg.s7 }
  | 24 => { state := reg, diags := [], result := some reg.t8 }
  | 25 => { state := reg, diags := [], result := some reg.t9 }
  | 26 => { state := reg, diags := [], result := some reg.k0 }
  | 27 => { state := reg, diags := [], result := some reg.k1 }
  | 28 => { state := reg, diags := [], result := some reg.gp }
  | 29 => { state := reg, diags := [], result := some reg.sp }
  | 30 => { state := reg, diags := [], result := some reg.fp }
  | 31 => { state := reg, diags := [], result := some reg.ra }
  | _ =>
    let call := log.Warnf "Unknown register index %v\n" [index]
    if call.aborts then { state := reg, diags := [call.diag], result := none }
    else { state := reg, diags := [call.diag], result := some reg.zero }

/-- The `switch` of `Registers.SetReg`: the state after the assignment
selected by `index`, what it reports, and whether the log call of the default
case aborted the run. -/
def Registers.SetReg.switch (reg : Registers) (index val : Nat) :
    Registers × List Diagnostic × Bool :=
  match index with
  | 0 => (reg, [], false)
  | 1 => ({ reg with at_ := val }, [], false)
  | 2 => ({ reg with v0 := val }, [], false)
  | 3 => ({ reg with v1 := val }, [], false)
  | 4 => ({ reg with a0 := val }, [], false)
  | 5 => ({ reg with a1 := val }, [], false)
  | 6 => ({ reg with a2 := val }, [], false)
  | 7 => ({ reg with a3 := val }, [], false)
  | 8 => ({ reg with t0 := val }, [], false)
  | 9 => ({ reg with t1 := val }, [], false)
  | 10 => ({ reg with t2 := val }, [], false)
  | 11 => ({ reg with t3 := val }, [], false)
  | 12 => ({ reg with t4 := val }, [], false)
  | 13 => ({ reg with t5 := val }, [], false)
  | 14 => ({ reg with t6 := val }, [], false)
  | 15 => ({ reg with t7 := val }, [], false)
  | 16 => ({ reg with s0 := val }, [], false)
  | 17 => ({ reg with s1 := val }, [], false)
  | 18 => ({ reg with s2 := val }, [], false)
  | 19 => ({ reg with s3 := val }, [], false)
  | 20 => ({ reg with s4 := val }, [], false)
  | 21 => ({ reg with s5 := val }, [], false)
  | 22 => ({ reg with s6 := val }, [], false)
  | 23 => ({ reg with s7 := val }, [], false)
  | 24 => ({ reg with t8 := val }, [], false)
  | 25 => ({ reg with t9 := val }, [], false)
  | 26 => ({ reg with k0 := val }, [], false)
  | 27 => ({ reg with k1 := val }, [], false)
  | 28 => ({ reg with gp := val }, [], false)
  | 29 => ({ reg with sp := val }, [], false)
  | 30 => ({ reg with fp := val }, [], false)
  | 31 => ({ reg with ra := val }, [], false)
  | _ =>
    let call := log.Warnf "Unknown register index %v\n" [index]
    (reg, [call.diag], call.aborts)

/-- `Registers.SetReg`: the `switch`, then `reg.zero = 0` (skipped only if
the log call of the default case aborted the run). -/
def Registers.SetReg (reg : Registers) (index val : Nat) : Outcome Registers Unit :=
  match Registers.SetReg.switch reg index val with
  | (reg1, diags, true) => { state := reg1, diags := diags, result := none }
  | (reg1, diags, false) =>
    { state := { reg1 with zero := 0 }, diags := diags, result := some () }

/-- The register file after a sequence of `SetReg (index, val)` calls, in
order, starting from `reg`. -/
def Registers.run (reg : Registers) : List (Nat × Nat) → Registers
  | [] => reg
  | (index, val) :: rest => Registers.run (Registers.SetReg reg index val).state rest

/-! ## Package `cpu`: coprocessor zero registers -/

/-- The registers of coprocessor zero (`CopZeroRegisters` of
`cpu/registers.go`). -/
structure CopZeroRegisters where
  bpc : Nat
  bda : Nat
  jumpDest : Nat
  dcic : Nat
  badVaddr : Nat
  bdam : Nat
  bpcm : Nat
  sr : Nat
  cause : Nat
  epc : Nat
  prid : Nat
deriving DecidableEq, Repr

/-- The zero value of `CopZeroRegisters`. -/
def CopZeroRegisters.init : CopZeroRegisters :=
  { bpc := 0, bda := 0, jumpDest := 0, dcic := 0, badVaddr := 0, bdam := 0,
    bpcm := 0, sr := 0, cause := 0, epc := 0, prid := 0 }

/-- `CopZeroRegisters.GetReg`: value and name of the register at `index`; an
index without a register goes to `log.Panicf`, and only if that returned
would the call return `(0x00, "UNKNOWN")`. -/
def CopZeroRegisters.GetReg (c : CopZeroRegisters) (index : Nat) :
    Outcome CopZeroRegisters (Nat × String) :=
  match index with
  | 3 => { state := c, diags := [], result := some (c.bpc, "BPC") }
  | 5 => { state := c, diags := [], result := some (c.bda, "BDA") }
  | 6 => { state := c, diags := [], result := some (c.jumpDest, "JUMPDEST") }
  | 7 => { state := c, diags := [], result := some (c.dcic, "DCIC") }
  | 8 => { state := c, diags := [], result := some (c.badVaddr, "BadVaddr") }
  | 9 => { state := c, diags := [], result := some (c.bdam, "BDAM") }
  | 11 => { state := c, diags := [], result := some (c.bpcm, "BPCM") }
  | 12 => { state := c, diags := [], result := some (c.sr, "SR") }
  | 13 => { state := c, diags := [], result := some (c.cause, "CAUSE") }
  | 14 => { state := c, diags := [], result := some (c.epc, "EPC") }
  | 15 => { state := c, diags := [], result := some (c.prid, "PRID") }
  | _ =>
    let call := log.Panicf "Unkown coprocessor zero register %v" [index]
    if call.aborts then { state := c, diags := [call.diag], result := none }
    else { state := c, diags := [call.diag], result := some (0x00, "UNKNOWN") }

/-- `CopZeroRegisters.SetReg`: writes `val` to the register at `index` and
returns its name; the two read-only registers (8 and 15) are not written and
a label saying so is returned; an index without a register goes to
`log.Panicf`, and only if that returned would the call return `"UNKNOWN"`. -/
def CopZeroRegisters.SetReg (c : CopZeroRegisters) (index val : Nat) :
    Outcome CopZeroRegisters String :=
  match index with
  | 3 => { state := { c with bpc := val }, diags := [], result := some "BPC" }
  | 5 => { state := { c with bda := val }, diags := [], result := some "BDA" }
  | 6 => { state := { c with jumpDest := val }, diags := [], result := some "JUMPDEST" }
  | 7 => { state := { c with dcic := val }, diags := [], result := some "DCIC" }
  | 8 => { state := c, diags := [], result := some "BadVaddr (READ ONLY)" }
  | 9 => { state := { c with bdam := val }, diags := [], result := some "BDAM" }
  | 11 => { state := { c with bpcm := val }, diags := [], result := some "BPCM" }
  | 12 => { state := { c with sr := val }, diags := [], result := some "SR" }
  | 13 => { state := { c with cause := val }, diags := [], result := some "CAUSE" }
  | 14 => { state := { c with epc := val }, diags := [], result := some "EPC" }
  | 15 => { state := c, diags := [], result := some "PRID (READ ONLY)" }
  | _ =>
    let call :=
      log.Panicf "Unkown write to coprocessor zero register %v with val 0x%08x" [index, val]
    if call.aborts then { state := c, diags := [call.diag], result := none }
    else { state := c, diags := [call.diag], result := some "UNKNOWN" }

/-- The indices `CopZeroRegisters.GetReg` and `SetReg` have a case for. -/
def CopZeroRegisters.recognised : List Nat := [3, 5, 6, 7, 8, 9, 11, 12, 13, 14, 15]

/-- The writable indices with the name the source gives each (the cases of
`CopZeroRegisters.SetReg` that assign a field). -/
def CopZeroRegisters.writable : List (Nat × String) :=
  [(3, "BPC"), (5, "BDA"), (6, "JUMPDEST"), (7, "DCIC"), (9, "BDAM"), (11, "BPCM"),
   (12, "SR"), (13, "CAUSE"), (14, "EPC")]

/-! ## Package `utils` (byte packing) -/

/-- A `uint32` result: Go's arithmetic on `uint32` wraps modulo `2 ^ 32`. -/
def u32 (n : Nat) : Nat := n % 2 ^ 32

/-- Modelled from the spec: `utils.Uint32ToBytes` of package `utils`, which
is not among the sources. Spec §4.3: "Decomposes `value` into 4 little-endian
bytes": byte `k` of the result is bits `8k .. 8k+7` of `val`. -/
def utils.Uint32ToBytes (val : Nat) : Nat × Nat × Nat × Nat :=
  (val &&& 0xFF, (val >>> 8) &&& 0xFF, (val >>> 16) &&& 0xFF, (val >>> 24) &&& 0xFF)

/-- Modelled from the spec: `utils.BytesToUint32` of package `utils`, which
is not among the sources. Spec §4.3: "composes them little-endian (byte at
`offset` is bits 0–7, byte at `offset+3` is bits 24–31)"; the arguments are
`uint8` values. -/
def utils.BytesToUint32 (b0 b1 b2 b3 : Nat) : Nat :=
  b0 ||| (b1 <<< 8) ||| (b2 <<< 16) ||| (b3 <<< 24)

/-! ## Package `memory` -/

/-- Go's run-time panic on a slice index that is not below the length. -/
inductive Panic where
  | indexOutOfRange (index len : Nat)
deriving DecidableEq, Repr

/-- The main memory (`Ram` of `memory/ram.go`): a slice of `uint8`. -/
structure Ram where
  data : List Nat
deriving DecidableEq, Repr

/-- Outcome of a method of `Ram`: the memory afterwards and the returned
value, or the panic that ended the call. -/
structure MemOutcome (α : Type) where
  ram : Ram
  result : Except Panic α

/-- Whether the call ended in a panic. -/
def MemOutcome.failed {α : Type} (o : MemOutcome α) : Bool :=
  match o.result with
  | Except.error _ => true
  | Except.ok _ => false

/-- Go's index expression `data[i]` as a value. -/
def sliceGet (data : List Nat) (i : Nat) : Except Panic Nat :=
  match data[i]? with
  | some b => Except.ok b
  | none => Except.error (Panic.indexOutOfRange i data.length)

/-- Go's assignment `data[i] = b`. -/
def sliceSet (data : List Nat) (i b : Nat) : Except Panic (List Nat) :=
  if i < data.length then Except.ok (data.set i b)
  else Except.error (Panic.indexOutOfRange i data.length)

/-- `Ram.load32`: reads `data[offset + 0]` to `data[offset + 3]` in that
order, the sums being `uint32` sums, and joins the four bytes. -/
def Ram.load32 (r : Ram) (offset : Nat) : MemOutcome Nat :=
  match sliceGet r.data (u32 (offset + 0)) with
  | Except.error e => { ram := r, result := Except.error e }
  | Except.ok b0 =>
    match sliceGet r.data (u32 (offset + 1)) with
    | Except.error e => { ram := r, result := Except.error e }
    | Except.ok b1 =>
      match sliceGet r.data (u32 (offset + 2)) with
      | Except.error e => { ram := r, result := Except.error e }
      | Except.ok b2 =>
        match sliceGet r.data (u32 (offset + 3)) with
        | Except.error e => { ram := r, result := Except.error e }
        | Except.ok b3 => { ram := r, result := Except.ok (utils.BytesToUint32 b0 b1 b2 b3) }

/-- `Ram.store32`: splits `val` into four bytes and assigns them to
`data[offset + 0]` to `data[offset + 3]` in that order, the sums being
`uint32` sums; a panic leaves the assignments made before it in place. -/
def Ram.store32 (r : Ram) (offset val : Nat) : MemOutcome Unit :=
  match utils.Uint32ToBytes val with
  | (b0, b1, b2, b3) =>
    match sliceSet r.data (u32 (offset + 0)) b0 with
    | Except.error e => { ram := r, result := Except.error e }
    | Except.ok d0 =>
      match sliceSet d0 (u32 (offset + 1)) b1 with
      | Except.error e => { ram := { data := d0 }, result := Except.error e }
      | Except.ok d1 =>
        match sliceSet d1 (u32 (offset + 2)) b2 with
        | Except.error e => { ram := { data := d1 }, result := Except.error e }
        | Except.ok d2 =>
          match sliceSet d2 (u32 (offset + 3)) b3 with
          | Except.error e => { ram := { data := d2 }, result := Except.error e }
          | Except.ok d3 => { ram := { data := d3 }, result := Except.ok () }

/-- The four assignments of `Ram.store32` when none of them panics, with the
bytes of `utils.Uint32ToBytes` written as quotients and remainders. -/
def stored (data : List Nat) (offset val : Nat) : List Nat :=
  (((data.set offset (val % 256)).set (offset + 1) (val / 2 ^ 8 % 256)).set (offset + 2)
    (val / 2 ^ 16 % 256)).set (offset + 3) (val / 2 ^ 24 % 256)

/-- Go's built-in `copy(dst, src)` for slices that do not overlap: the
contents of `dst` afterwards, its first `min (len dst) (len src)` elements
replaced by those of `src`. -/
def copy (dst src : List Nat) : List Nat :=
  src.take (min dst.length src.length) ++ dst.drop (min dst.length src.length)

/-- The loop of `NewRam`, entered with counter `i`:
`for ; i < len(data); i *= 2 { copy(data[i:], data[:i]) }`. -/
def NewRam.loop (data : List Nat) (i : Nat) (hi : 0 < i) : List Nat :=
  if h : i < data.length then
    NewRam.loop (data.take i ++ copy (data.drop i) (data.take i)) (i * 2) (by omega)
  else data
termination_by data.length - i
decreasing_by
  simp only [copy, List.length_append, List.length_take, List.length_drop]
  omega

/-- `NewRam`: `0x200000` zero bytes, `data[0] = 0xca`, then the loop from
`i := 1`. -/
def NewRam : Ram :=
  { data := NewRam.loop ((List.replicate 0x200000 0).set 0 0xca) 1 (by decide) }

/-! ## Definitions used to state the later properties -/

/-- The array model of the register file described in the design notes: a
32-element `uint32` array behind one accessor pair. -/
structure ArrayRegisters where
  arr : List Nat
deriving DecidableEq, Repr

/-- The all-zero array of 32 elements. -/
def ArrayRegisters.init : ArrayRegisters := { arr := List.replicate 32 0 }

/-- Array model, read: `arr[i]` for `i ≤ 31` and 0 otherwise. -/
def ArrayRegisters.get (a : ArrayRegisters) (i : Nat) : Nat :=
  if i ≤ 31 then a.arr.getD i 0 else 0

/-- Array model, write: `arr[i] := v` only for `1 ≤ i ≤ 31`, and then
`arr[0] := 0` whatever the index was. -/
def ArrayRegisters.set (a : ArrayRegisters) (i v : Nat) : ArrayRegisters :=
  { arr := (if 1 ≤ i ∧ i ≤ 31 then a.arr.set i v else a.arr).set 0 0 }

/-- The array model after a sequence of writes `(index, val)`, in order. -/
def ArrayRegisters.run (a : ArrayRegisters) : List (Nat × Nat) → ArrayRegisters
  | [] => a
  | (index, val) :: rest => ArrayRegisters.run (ArrayRegisters.set a index val) rest

/-- The 32 fields of a register file in index order, as an array. -/
def Registers.toArray (reg : Registers) : ArrayRegisters :=
  { arr := [reg.zero, reg.at_, reg.v0, reg.v1, reg.a0, reg.a1, reg.a2, reg.a3,
            reg.t0, reg.t1, reg.t2, reg.t3, reg.t4, reg.t5, reg.t6, reg.t7,
            reg.s0, reg.s1, reg.s2, reg.s3, reg.s4, reg.s5, reg.s6, reg.s7,
            reg.t8, reg.t9, reg.k0, reg.k1, reg.gp, reg.sp, reg.fp, reg.ra] }

/-- The coprocessor state after a sequence of `SetReg (index, val)` calls, in
order; `none` as soon as one of the calls aborts the run. -/
def CopZeroRegisters.run (c : CopZeroRegisters) : List (Nat × Nat) → Option CopZeroRegisters
  | [] => some c
  | (index, val) :: rest =>
    match (CopZeroRegisters.SetReg c index val).result with
    | none => none
    | some _ => CopZeroRegisters.run (CopZeroRegisters.SetReg c index val).state rest

/-- Every element of the memory is a `uint8` value, as the type `[]uint8`
of `Ram.data` makes it. -/
def Ram.bytesOk (r : Ram) : Prop := ∀ b ∈ r.data, b < 256

/-! ## Lemmas: general purpose registers -/

/-- The log call of the default case never aborts, so the `switch` of
`SetReg` always falls through to `reg.zero = 0`. -/
theorem Registers.SetReg.switch_returns (reg : Registers) (index val : Nat) :
    (Registers.SetReg.switch reg index val).2.2 = false := by
  unfold Registers.SetReg.switch
  split <;> rfl

/-- `SetReg` always returns, and its final state is the state after the
`switch` with the `zero` field cleared. -/
theorem Registers.SetReg_eq (reg : Registers) (index val : Nat) :
    Registers.SetReg reg index val =
      { state := { (Registers.SetReg.switch reg index val).1 with zero := 0 },
        diags := (Registers.SetReg.switch reg index val).2.1,
        result := some () } := by
  have h := Registers.SetReg.switch_returns reg index val
  unfold Registers.SetReg
  rcases hsw : Registers.SetReg.switch reg index val with ⟨reg1, diags, b⟩
  rw [hsw] at h
  simp only at h
  subst h
  rfl

/-- After any `SetReg` the `zero` field holds 0. -/
theorem Registers.SetReg_zero (reg : Registers) (index val : Nat) :
    (Registers.SetReg reg index val).state.zero = 0 := by
  rw [Registers.SetReg_eq]

/-- A register file whose `zero` field holds 0 keeps it at 0 through any
sequence of `SetReg` calls. -/
theorem Registers.run_zero (calls : List (Nat × Nat)) :
    ∀ reg : Registers, reg.zero = 0 → (Registers.run reg calls).zero = 0 := by
  induction calls with
  | nil => intro reg h; exact h
  | cons call rest ih =>
    intro reg _
    obtain ⟨index, val⟩ := call
    exact ih _ (Registers.SetReg_zero reg index val)

/-- An index above 31 selects the default case of `GetReg`. -/
theorem Registers.GetReg_default (reg : Registers) (index : Nat) (h : 31 < index) :
    Registers.GetReg reg index =
      { state := reg,
        diags := [{ level := Level.warn, format := "Unknown register index %v\n",
                    args := [index] }],
        result := some reg.zero } := by
  unfold Registers.GetReg
  split <;> first | omega | rfl

/-! ## Theorems: general purpose registers -/

/-- C1: for every register state (also one whose `zero` field is not 0),
every index and every value, `GetReg 0` returns 0 after `SetReg index val`;
hence `GetReg 0` returns 0 in every state reached from the zero-initialised
register file by a sequence of `SetReg` calls. -/
theorem c1_register_zero_reads_zero :
    (∀ (reg : Registers) (index val : Nat),
      (Registers.GetReg (Registers.SetReg reg index val).state 0).result = some 0) ∧
    (∀ calls : List (Nat × Nat),
      (Registers.GetReg (Registers.run Registers.init calls) 0).result = some 0) := by
  constructor
  · intro reg index val
    show some (Registers.SetReg reg index val).state.zero = some 0
    rw [Registers.SetReg_zero]
  · intro calls
    show some (Registers.run Registers.init calls).zero = some 0
    rw [Registers.run_zero calls Registers.init rfl]

/-- C2: for every register state, every index `i` with `1 ≤ i ≤ 31` and
every value `v`, `GetReg i` returns `v` after `SetReg i v`. -/
theorem c2_set_then_get (reg : Registers) (i v : Nat) (h1 : 1 ≤ i) (h31 : i ≤ 31) :
    (Registers.GetReg (Registers.SetReg reg i v).state i).result = some v := by
  rw [Registers.SetReg_eq]
  interval_cases i <;> rfl

/-- C2 at the spec's concrete case: `SetReg 4 100` then `GetReg 4` gives 100
(here on a register file holding other values). -/
theorem c2_set_then_get_witness :
    (Registers.GetReg
      (Registers.SetReg { Registers.init with zero := 7, a0 := 3 } 4 100).state 4).result
      = some 100 :=
  c2_set_then_get { Registers.init with zero := 7, a0 := 3 } 4 100 (by decide) (by decide)

/-- C10: in every state reached from the zero-initialised register file by
`SetReg` calls, `GetReg` with an index above 31 returns (it does not abort),
makes exactly one warn-level report, returns 0, and leaves the register
file as it was. -/
theorem c10_get_out_of_range (calls : List (Nat × Nat)) (index : Nat) (h : 31 < index) :
    Registers.GetReg (Registers.run Registers.init calls) index =
      { state := Registers.run Registers.init calls,
        diags := [{ level := Level.warn, format := "Unknown register index %v\n",
                    args := [index] }],
        result := some 0 } := by
  rw [Registers.GetReg_default _ index h, Registers.run_zero calls Registers.init rfl]

/-- C10 at index 32, after `SetReg 4 100`, `SetReg 0 999`, `SetReg 32 5`. -/
theorem c10_get_out_of_range_witness :
    Registers.GetReg (Registers.run Registers.init [(4, 100), (0, 999), (32, 5)]) 32 =
      { state := Registers.run Registers.init [(4, 100), (0, 999), (32, 5)],
        diags := [{ level := Level.warn, format := "Unknown register index %v\n",
                    args := [32] }],
        result := some 0 } :=
  c10_get_out_of_range [(4, 100), (0, 999), (32, 5)] 32 (by decide)

/-! ## Lemmas: coprocessor zero registers -/

/-- An index without a case sends `GetReg` to `log.Panicf`: one fatal
report, no returned value, state untouched. -/
theorem CopZeroRegisters.GetReg_unrecognised (c : CopZeroRegisters) (index : Nat)
    (h : index ∉ CopZeroRegisters.recognised) :
    CopZeroRegisters.GetReg c index =
      { state := c,
        diags := [{ level := Level.fatal, format := "Unkown coprocessor zero register %v",
                    args := [index] }],
        result := none } := by
  simp only [CopZeroRegisters.recognised, List.mem_cons, List.mem_singleton, not_or,
    List.not_mem_nil, or_false] at h
  unfold CopZeroRegisters.GetReg
  split <;> first | omega | rfl

/-- An index without a case sends `SetReg` to `log.Panicf`: one fatal
report, no returned value, state untouched. -/
theorem CopZeroRegisters.SetReg_unrecognised (c : CopZeroRegisters) (index val : Nat)
    (h : index ∉ CopZeroRegisters.recognised) :
    CopZeroRegisters.SetReg c index val =
      { state := c,
        diags := [{ level := Level.fatal,
                    format := "Unkown write to coprocessor zero register %v with val 0x%08x",
                    args := [index, val] }],
        result := none } := by
  simp only [CopZeroRegisters.recognised, List.mem_cons, List.mem_singleton, not_or,
    List.not_mem_nil, or_false] at h
  unfold CopZeroRegisters.SetReg
  split <;> first | omega | rfl

/-- At an index with a case `GetReg` returns a value. -/
theorem CopZeroRegisters.GetReg_recognised (c : CopZeroRegisters) (index : Nat)
    (h : index ∈ CopZeroRegisters.recognised) :
    (CopZeroRegisters.GetReg c index).result ≠ none := by
  simp only [CopZeroRegisters.recognised, List.mem_cons, List.mem_singleton,
    List.not_mem_nil, or_false] at h
  rcases h with h | h | h | h | h | h | h | h | h | h | h <;> subst h <;>
    simp [CopZeroRegisters.GetReg]

/-- At an index with a case `SetReg` returns a value. -/
theorem CopZeroRegisters.SetReg_recognised (c : CopZeroRegisters) (index val : Nat)
    (h : index ∈ CopZeroRegisters.recognised) :
    (CopZeroRegisters.SetReg c index val).result ≠ none := by
  simp only [CopZeroRegisters.recognised, List.mem_cons, List.mem_singleton,
    List.not_mem_nil, or_false] at h
  rcases h with h | h | h | h | h | h | h | h | h | h | h <;> subst h <;>
    simp [CopZeroRegisters.SetReg]

/-! ## Theorems: coprocessor zero registers -/

/-- C6: for every state and value, `SetReg 8 v` returns the label
"BadVaddr (READ ONLY)" and `SetReg 15 v` returns "PRID (READ ONLY)"; both
leave the whole state unchanged and report nothing, so `GetReg 8` and
`GetReg 15` give afterwards what they gave before. -/
theorem c6_read_only_writes (c : CopZeroRegisters) (v : Nat) :
    CopZeroRegisters.SetReg c 8 v =
      { state := c, diags := [], result := some "BadVaddr (READ ONLY)" } ∧
    CopZeroRegisters.SetReg c 15 v =
      { state := c, diags := [], result := some "PRID (READ ONLY)" } ∧
    CopZeroRegisters.GetReg (CopZeroRegisters.SetReg c 8 v).state 8 =
      CopZeroRegisters.GetReg c 8 ∧
    CopZeroRegisters.GetReg (CopZeroRegisters.SetReg c 8 v).state 15 =
      CopZeroRegisters.GetReg c 15 ∧
    CopZeroRegisters.GetReg (CopZeroRegisters.SetReg c 15 v).state 8 =
      CopZeroRegisters.GetReg c 8 ∧
    CopZeroRegisters.GetReg (CopZeroRegisters.SetReg c 15 v).state 15 =
      CopZeroRegisters.GetReg c 15 :=
  ⟨rfl, rfl, rfl, rfl, rfl, rfl⟩

/-- C7: for every index, `GetReg index` fails (it returns nothing, having
made one fatal report through `log.Panicf`) exactly when `index` is not one
of 3, 5, 6, 7, 8, 9, 11, 12, 13, 14, 15; `SetReg index v` fails under the
same condition; and a failing call of either leaves the state unchanged. -/
theorem c7_unrecognised_index_fails (c : CopZeroRegisters) (index v : Nat) :
    ((CopZeroRegisters.GetReg c index).result = none ↔
      index ∉ CopZeroRegisters.recognised) ∧
    ((CopZeroRegisters.SetReg c index v).result = none ↔
      index ∉ CopZeroRegisters.recognised) ∧
    (index ∉ CopZeroRegisters.recognised →
      CopZeroRegisters.GetReg c index =
        { state := c,
          diags := [{ level := Level.fatal, format := "Unkown coprocessor zero register %v",
                      args := [index] }],
          result := none } ∧
      CopZeroRegisters.SetReg c index v =
        { state := c,
          diags := [{ level := Level.fatal,
                      format := "Unkown write to coprocessor zero register %v with val 0x%08x",
                      args := [index, v] }],
          result := none }) := by
  refine ⟨⟨fun h hmem => ?_, fun h => ?_⟩, ⟨fun h hmem => ?_, fun h => ?_⟩, fun h => ?_⟩
  · exact CopZeroRegisters.GetReg_recognised c index hmem h
  · rw [CopZeroRegisters.GetReg_unrecognised c index h]
  · exact CopZeroRegisters.SetReg_recognised c index v hmem h
  · rw [CopZeroRegisters.SetReg_unrecognised c index v h]
  · exact ⟨CopZeroRegisters.GetReg_unrecognised c index h,
      CopZeroRegisters.SetReg_unrecognised c index v h⟩

/-- C7 at index 0: `GetReg 0` and `SetReg 0 5` fail on a state holding
values, and the state is left as it was. -/
theorem c7_unrecognised_index_fails_witness :
    (CopZeroRegisters.GetReg { CopZeroRegisters.init with sr := 9 } 0).result = none ∧
    (CopZeroRegisters.SetReg { CopZeroRegisters.init with sr := 9 } 0 5).result = none ∧
    (CopZeroRegisters.SetReg { CopZeroRegisters.init with sr := 9 } 0 5).state =
      { CopZeroRegisters.init with sr := 9 } :=
  have h := c7_unrecognised_index_fails { CopZeroRegisters.init with sr := 9 } 0 5
  ⟨h.1.mpr (by decide), h.2.1.mpr (by decide),
    congrArg Outcome.state (h.2.2 (by decide)).2⟩

/-- C8: for every writable index `i` (3, 5, 6, 7, 9, 11, 12, 13, 14) with
its canonical name `name` (BPC, BDA, JUMPDEST, DCIC, BDAM, BPCM, SR, CAUSE,
EPC in that order) and every value `v`, `SetReg i v` returns `name`, and
`GetReg i` on the state it leaves returns `(v, name)`. -/
theorem c8_writable_set_then_get (c : CopZeroRegisters) (i v : Nat) (name : String)
    (h : (i, name) ∈ CopZeroRegisters.writable) :
    (CopZeroRegisters.SetReg c i v).result = some name ∧
    (CopZeroRegisters.GetReg (CopZeroRegisters.SetReg c i v).state i).result =
      some (v, name) := by
  simp only [CopZeroRegisters.writable, List.mem_cons, List.mem_singleton, Prod.mk.injEq,
    List.not_mem_nil, or_false] at h
  rcases h with h | h | h | h | h | h | h | h | h <;> obtain ⟨rfl, rfl⟩ := h <;>
    exact ⟨rfl, rfl⟩

/-- C8 at index 12 (SR): `SetReg 12 0x401` returns "SR" and `GetReg 12` then
returns `(0x401, "SR")`. -/
theorem c8_writable_set_then_get_witness :
    (CopZeroRegisters.SetReg CopZeroRegisters.init 12 0x401).result = some "SR" ∧
    (CopZeroRegisters.GetReg
      (CopZeroRegisters.SetReg CopZeroRegisters.init 12 0x401).state 12).result =
      some (0x401, "SR") :=
  c8_writable_set_then_get CopZeroRegisters.init 12 0x401 "SR" (by decide)

/-! ## Lemmas: byte packing -/

/-- A value below `2 ^ 32` is its own `uint32` value. -/
theorem u32_of_lt {n : Nat} (h : n < 2 ^ 32) : u32 n = n :=
  Nat.mod_eq_of_lt h

/-- Masking with `0xFF` keeps the value modulo 256. -/
theorem and_0xFF (x : Nat) : x &&& 0xFF = x % 256 :=
  Nat.and_pow_two_sub_one_eq_mod x 8

/-- Or-ing a value below `2 ^ i` with a value shifted left by `i` adds them. -/
theorem or_shiftLeft_eq_add {a : Nat} (i b : Nat) (h : a < 2 ^ i) :
    a ||| (b <<< i) = a + b * 2 ^ i := by
  rw [Nat.or_comm, Nat.shiftLeft_eq, Nat.mul_comm b, ← Nat.mul_add_lt_is_or h b, Nat.add_comm]

/-- On four bytes the join is the little-endian positional sum. -/
theorem utils.BytesToUint32_eq_sum {b0 b1 b2 b3 : Nat}
    (h0 : b0 < 256) (h1 : b1 < 256) (h2 : b2 < 256) (_h3 : b3 < 256) :
    utils.BytesToUint32 b0 b1 b2 b3 = b0 + b1 * 2 ^ 8 + b2 * 2 ^ 16 + b3 * 2 ^ 24 := by
  unfold utils.BytesToUint32
  rw [or_shiftLeft_eq_add 8 b1 (by omega), or_shiftLeft_eq_add 16 b2 (by omega),
    or_shiftLeft_eq_add 24 b3 (by omega)]

/-- Byte `k` of the split, as quotient and remainder. -/
theorem utils.Uint32ToBytes_eq (val : Nat) :
    utils.Uint32ToBytes val =
      (val % 256, val / 2 ^ 8 % 256, val / 2 ^ 16 % 256, val / 2 ^ 24 % 256) := by
  simp only [utils.Uint32ToBytes, and_0xFF, Nat.shiftRight_eq_div_pow]

/-- Joining the split of a `uint32` value gives the value back. -/
theorem utils.join_split (val : Nat) (h : val < 2 ^ 32) :
    utils.BytesToUint32 (val % 256) (val / 2 ^ 8 % 256) (val / 2 ^ 16 % 256)
      (val / 2 ^ 24 % 256) = val := by
  rw [utils.BytesToUint32_eq_sum (Nat.mod_lt _ (by decide)) (Nat.mod_lt _ (by decide))
    (Nat.mod_lt _ (by decide)) (Nat.mod_lt _ (by decide))]
  omega

/-! ## Lemmas: memory -/

/-- An index below the length reads the element there. -/
theorem sliceGet_of_lt {data : List Nat} {i : Nat} (h : i < data.length) :
    sliceGet data i = Except.ok (data.getD i 0) := by
  unfold sliceGet
  rw [List.getD_eq_getElem?_getD, List.getElem?_eq_getElem h]
  rfl

/-- An index not below the length panics. -/
theorem sliceGet_of_le {data : List Nat} {i : Nat} (h : data.length ≤ i) :
    sliceGet data i = Except.error (Panic.indexOutOfRange i data.length) := by
  unfold sliceGet
  rw [List.getElem?_eq_none h]

/-- An assignment below the length replaces the element there. -/
theorem sliceSet_of_lt {data : List Nat} {i : Nat} (b : Nat) (h : i < data.length) :
    sliceSet data i b = Except.ok (data.set i b) := by
  unfold sliceSet
  rw [if_pos h]

/-- An assignment not below the length panics. -/
theorem sliceSet_of_le {data : List Nat} {i : Nat} (b : Nat) (h : data.length ≤ i) :
    sliceSet data i b = Except.error (Panic.indexOutOfRange i data.length) := by
  unfold sliceSet
  rw [if_neg (by omega)]

/-- An in-range `store32` makes its four assignments and returns. -/
theorem Ram.store32_of_lt (r : Ram) (offset val : Nat) (h : offset + 3 < r.data.length)
    (h32 : offset + 3 < 2 ^ 32) :
    Ram.store32 r offset val =
      { ram := { data := stored r.data offset val }, result := Except.ok () } := by
  unfold Ram.store32
  rw [utils.Uint32ToBytes_eq]
  simp only [u32_of_lt (show offset + 0 < 2 ^ 32 by omega),
    u32_of_lt (show offset + 1 < 2 ^ 32 by omega),
    u32_of_lt (show offset + 2 < 2 ^ 32 by omega), u32_of_lt h32]
  rw [sliceSet_of_lt _ (show offset + 0 < r.data.length by omega)]
  simp only
  rw [sliceSet_of_lt _ (by rw [List.length_set]; omega)]
  simp only
  rw [sliceSet_of_lt _ (by rw [List.length_set, List.length_set]; omega)]
  simp only
  rw [sliceSet_of_lt _ (by rw [List.length_set, List.length_set, List.length_set]; omega)]
  rfl

/-- An in-range `load32` joins the four bytes at `offset` and returns. -/
theorem Ram.load32_of_lt (r : Ram) (offset : Nat) (h : offset + 3 < r.data.length)
    (h32 : offset + 3 < 2 ^ 32) :
    Ram.load32 r offset =
      { ram := r,
        result := Except.ok (utils.BytesToUint32 (r.data.getD offset 0)
          (r.data.getD (offset + 1) 0) (r.data.getD (offset + 2) 0)
          (r.data.getD (offset + 3) 0)) } := by
  unfold Ram.load32
  simp only [u32_of_lt (show offset + 0 < 2 ^ 32 by omega),
    u32_of_lt (show offset + 1 < 2 ^ 32 by omega),
    u32_of_lt (show offset + 2 < 2 ^ 32 by omega), u32_of_lt h32]
  rw [sliceGet_of_lt (show offset + 0 < r.data.length by omega),
    sliceGet_of_lt (show offset + 1 < r.data.length by omega),
    sliceGet_of_lt (show offset + 2 < r.data.length by omega),
    sliceGet_of_lt h]
  rfl



/-- The length is unchanged by the four assignments. -/
theorem stored_length (data : List Nat) (offset val : Nat) :
    (stored data offset val).length = data.length := by
  simp only [stored, List.length_set]

/-- What the four assignments leave at each position. -/
theorem stored_get (data : List Nat) (offset val j : Nat)
    (h : offset + 3 < data.length) :
    (stored data offset val)[j]? =
      if j = offset then some (val % 256)
      else if j = offset + 1 then some (val / 2 ^ 8 % 256)
      else if j = offset + 2 then some (val / 2 ^ 16 % 256)
      else if j = offset + 3 then some (val / 2 ^ 24 % 256)
      else data[j]? := by
  simp only [stored, List.getElem?_set, List.length_set]
  split_ifs <;> first | rfl | omega

/-- Reading one of the four positions after the assignments. -/
theorem stored_getD (data : List Nat) (offset val : Nat) (h : offset + 3 < data.length) :
    (stored data offset val).getD offset 0 = val % 256 ∧
    (stored data offset val).getD (offset + 1) 0 = val / 2 ^ 8 % 256 ∧
    (stored data offset val).getD (offset + 2) 0 = val / 2 ^ 16 % 256 ∧
    (stored data offset val).getD (offset + 3) 0 = val / 2 ^ 24 % 256 := by
  simp only [List.getD_eq_getElem?_getD, stored_get data offset val _ h]
  refine ⟨?_, ?_, ?_, ?_⟩ <;> simp

/-- `load32` on an offset whose last byte is out of range panics at the
first index that is not below the length. -/
theorem Ram.load32_of_le (r : Ram) (offset : Nat) (h32 : offset < 2 ^ 32)
    (hlen : r.data.length + 3 ≤ 2 ^ 32) (h : r.data.length ≤ offset + 3) :
    Ram.load32 r offset =
      { ram := r,
        result := Except.error (Panic.indexOutOfRange (max offset r.data.length)
          r.data.length) } := by
  unfold Ram.load32
  by_cases h0 : r.data.length ≤ offset
  · rw [u32_of_lt (show offset + 0 < 2 ^ 32 by omega), sliceGet_of_le (by omega),
      Nat.max_eq_left h0]
    rfl
  · rw [u32_of_lt (show offset + 0 < 2 ^ 32 by omega),
      sliceGet_of_lt (show offset + 0 < r.data.length by omega),
      Nat.max_eq_right (by omega)]
    simp only
    rw [u32_of_lt (show offset + 1 < 2 ^ 32 by omega)]
    by_cases h1 : r.data.length ≤ offset + 1
    · rw [sliceGet_of_le h1, show offset + 1 = r.data.length by omega]
    · rw [sliceGet_of_lt (by omega)]
      simp only
      rw [u32_of_lt (show offset + 2 < 2 ^ 32 by omega)]
      by_cases h2 : r.data.length ≤ offset + 2
      · rw [sliceGet_of_le h2, show offset + 2 = r.data.length by omega]
      · rw [sliceGet_of_lt (by omega)]
        simp only
        rw [u32_of_lt (show offset + 3 < 2 ^ 32 by omega), sliceGet_of_le h,
          show offset + 3 = r.data.length by omega]

/-- `store32` on an offset whose last byte is out of range panics at the
first index that is not below the length. -/
theorem Ram.store32_of_le (r : Ram) (offset val : Nat) (h32 : offset < 2 ^ 32)
    (hlen : r.data.length + 3 ≤ 2 ^ 32) (h : r.data.length ≤ offset + 3) :
    (Ram.store32 r offset val).result =
      Except.error (Panic.indexOutOfRange (max offset r.data.length) r.data.length) := by
  unfold Ram.store32
  rw [utils.Uint32ToBytes_eq]
  simp only
  by_cases h0 : r.data.length ≤ offset
  · rw [u32_of_lt (show offset + 0 < 2 ^ 32 by omega), sliceSet_of_le _ (by omega),
      Nat.max_eq_left h0]
    rfl
  · rw [u32_of_lt (show offset + 0 < 2 ^ 32 by omega),
      sliceSet_of_lt _ (show offset + 0 < r.data.length by omega),
      Nat.max_eq_right (by omega)]
    simp only
    rw [u32_of_lt (show offset + 1 < 2 ^ 32 by omega)]
    by_cases h1 : r.data.length ≤ offset + 1
    · rw [sliceSet_of_le _ (by rw [List.length_set]; exact h1), List.length_set,
        show offset + 1 = r.data.length by omega]
    · rw [sliceSet_of_lt _ (by rw [List.length_set]; omega)]
      simp only
      rw [u32_of_lt (show offset + 2 < 2 ^ 32 by omega)]
      by_cases h2 : r.data.length ≤ offset + 2
      · rw [sliceSet_of_le _ (by simp only [List.length_set]; exact h2)]
        simp only [List.length_set]
        rw [show offset + 2 = r.data.length by omega]
      · rw [sliceSet_of_lt _ (by simp only [List.length_set]; omega)]
        simp only
        rw [u32_of_lt (show offset + 3 < 2 ^ 32 by omega),
          sliceSet_of_le _ (by simp only [List.length_set]; exact h)]
        simp only [List.length_set]
        rw [show offset + 3 = r.data.length by omega]

/-! ## Lemmas: `NewRam` -/

/-- The length of the destination is what `copy` keeps. -/
theorem copy_length (dst src : List Nat) : (copy dst src).length = dst.length := by
  simp only [copy, List.length_append, List.length_take, List.length_drop]
  omega

/-- One pass of the loop keeps the length of the buffer. -/
theorem NewRam.pass_length (data : List Nat) (i : Nat) (h : i < data.length) :
    (data.take i ++ copy (data.drop i) (data.take i)).length = data.length := by
  simp only [List.length_append, copy_length, List.length_take, List.length_drop]
  omega

/-- One pass of the loop keeps the bytes below the counter. -/
theorem NewRam.pass_get_of_lt (data : List Nat) (i k : Nat) (hk : k < i)
    (h : i < data.length) :
    (data.take i ++ copy (data.drop i) (data.take i))[k]? = data[k]? := by
  rw [List.getElem?_append_left (by rw [List.length_take]; omega), List.getElem?_take_of_lt hk]

/-- The loop keeps the length of the buffer. -/
theorem NewRam.loop_length (data : List Nat) (i : Nat) (hi : 0 < i) :
    (NewRam.loop data i hi).length = data.length := by
  induction data, i, hi using NewRam.loop.induct with
  | case1 data i hi h ih =>
    rw [NewRam.loop, dif_pos h, ih, NewRam.pass_length data i h]
  | case2 data i hi h =>
    rw [NewRam.loop, dif_neg h]

/-- The loop keeps the bytes below the counter it is entered with. -/
theorem NewRam.loop_get_of_lt (data : List Nat) (i : Nat) (hi : 0 < i) (k : Nat)
    (hk : k < i) : (NewRam.loop data i hi)[k]? = data[k]? := by
  induction data, i, hi using NewRam.loop.induct with
  | case1 data i hi h ih =>
    rw [NewRam.loop, dif_pos h, ih (by omega), NewRam.pass_get_of_lt data i k hk h]
  | case2 data i hi h =>
    rw [NewRam.loop, dif_neg h]

/-- `NewRam` has `0x200000` bytes. -/
theorem NewRam_length : NewRam.data.length = 0x200000 := by
  unfold NewRam
  rw [NewRam.loop_length, List.length_set, List.length_replicate]

/-- The first byte of `NewRam` is `0xca`. -/
theorem NewRam_head : NewRam.data[0]? = some 0xca := by
  unfold NewRam
  rw [NewRam.loop_get_of_lt _ 1 (by decide) 0 (by decide),
    List.getElem?_set_self (by rw [List.length_replicate]; decide)]

/-! ## Theorems: memory -/

/-- C3: on a memory of `0x200000` bytes, for every offset from 0 to
`0x200000 - 4` (aligned or not) and every 32-bit value `v`, `store32 offset v`
returns, and `load32 offset` on the memory it leaves returns `v`. -/
theorem c3_store_load_round_trip (r : Ram) (offset v : Nat)
    (hlen : r.data.length = 0x200000) (ho : offset ≤ 0x200000 - 4) (hv : v < 2 ^ 32) :
    (Ram.store32 r offset v).result = Except.ok () ∧
    (Ram.load32 (Ram.store32 r offset v).ram offset).result = Except.ok v := by
  have hin : offset + 3 < r.data.length := by omega
  have h32 : offset + 3 < 2 ^ 32 := by omega
  rw [Ram.store32_of_lt r offset v hin h32]
  refine ⟨rfl, ?_⟩
  rw [Ram.load32_of_lt _ offset (by rw [stored_length]; exact hin) h32]
  obtain ⟨g0, g1, g2, g3⟩ := stored_getD r.data offset v hin
  simp only [g0, g1, g2, g3, utils.join_split v hv]

/-- C3 on the memory `NewRam` builds: an unaligned store at offset 5 and one
at the last offset `0x200000 - 4` read back. -/
theorem c3_store_load_round_trip_witness :
    (Ram.load32 (Ram.store32 NewRam 5 0xDEADBEEF).ram 5).result = Except.ok 0xDEADBEEF ∧
    (Ram.load32 (Ram.store32 NewRam 0x1FFFFC 0x12345678).ram 0x1FFFFC).result =
      Except.ok 0x12345678 :=
  ⟨(c3_store_load_round_trip NewRam 5 0xDEADBEEF NewRam_length (by decide) (by decide)).2,
   (c3_store_load_round_trip NewRam 0x1FFFFC 0x12345678 NewRam_length (by decide)
      (by decide)).2⟩

/-- C4: on a memory of `0x200000` bytes, for every offset with
`offset + 3 < 0x200000` and every value `v`, `store32 offset v` returns and
leaves `(v >> (8 * k)) & 0xFF` in `data[offset + k]` for `k = 0, 1, 2, 3`. -/
theorem c4_store32_little_endian (r : Ram) (offset v : Nat)
    (hlen : r.data.length = 0x200000) (ho : offset + 3 < 0x200000) :
    (Ram.store32 r offset v).result = Except.ok () ∧
    ∀ k, k < 4 →
      (Ram.store32 r offset v).ram.data[offset + k]? = some ((v >>> (8 * k)) &&& 0xFF) := by
  have hin : offset + 3 < r.data.length := by omega
  rw [Ram.store32_of_lt r offset v hin (by omega)]
  refine ⟨rfl, fun k hk => ?_⟩
  simp only [stored_get r.data offset v _ hin, and_0xFF, Nat.shiftRight_eq_div_pow]
  interval_cases k <;> simp

/-- C4 at the spec's two concrete stores: `store32 0 0x12345678` leaves
`0x78, 0x56, 0x34, 0x12` at 0..3 and `store32 0x10 0xDEADBEEF` leaves
`0xEF, 0xBE, 0xAD, 0xDE` at `0x10..0x13`. -/
theorem c4_store32_little_endian_witness :
    ((Ram.store32 NewRam 0 0x12345678).ram.data[0]? = some 0x78 ∧
     (Ram.store32 NewRam 0 0x12345678).ram.data[1]? = some 0x56 ∧
     (Ram.store32 NewRam 0 0x12345678).ram.data[2]? = some 0x34 ∧
     (Ram.store32 NewRam 0 0x12345678).ram.data[3]? = some 0x12) ∧
    ((Ram.store32 NewRam 0x10 0xDEADBEEF).ram.data[0x10]? = some 0xEF ∧
     (Ram.store32 NewRam 0x10 0xDEADBEEF).ram.data[0x11]? = some 0xBE ∧
     (Ram.store32 NewRam 0x10 0xDEADBEEF).ram.data[0x12]? = some 0xAD ∧
     (Ram.store32 NewRam 0x10 0xDEADBEEF).ram.data[0x13]? = some 0xDE) :=
  have h1 := (c4_store32_little_endian NewRam 0 0x12345678 NewRam_length (by decide)).2
  have h2 := (c4_store32_little_endian NewRam 0x10 0xDEADBEEF NewRam_length (by decide)).2
  ⟨⟨h1 0 (by decide), h1 1 (by decide), h1 2 (by decide), h1 3 (by decide)⟩,
   ⟨h2 0 (by decide), h2 1 (by decide), h2 2 (by decide), h2 3 (by decide)⟩⟩

/-- C5: on a memory of `0x200000` bytes, for every 32-bit offset, `load32`
fails exactly when `offset + 3 ≥ 0x200000` (the sum taken without
wraparound), `store32` fails under the same condition, and the failure is
the index-out-of-range panic at the first index not below the length; no
offset near `2 ^ 32` is accepted. -/
theorem c5_out_of_bounds (r : Ram) (offset v : Nat)
    (hlen : r.data.length = 0x200000) (ho : offset < 2 ^ 32) :
    ((Ram.load32 r offset).failed = true ↔ 0x200000 ≤ offset + 3) ∧
    ((Ram.store32 r offset v).failed = true ↔ 0x200000 ≤ offset + 3) ∧
    (0x200000 ≤ offset + 3 →
      (Ram.load32 r offset).result =
        Except.error (Panic.indexOutOfRange (max offset 0x200000) 0x200000) ∧
      (Ram.store32 r offset v).result =
        Except.error (Panic.indexOutOfRange (max offset 0x200000) 0x200000)) := by
  have hl : r.data.length + 3 ≤ 2 ^ 32 := by omega
  by_cases h : 0x200000 ≤ offset + 3
  · have hle : r.data.length ≤ offset + 3 := by omega
    have e1 := congrArg MemOutcome.result (Ram.load32_of_le r offset ho hl hle)
    have e2 := Ram.store32_of_le r offset v ho hl hle
    rw [hlen] at e1 e2
    simp only at e1
    refine ⟨⟨fun _ => h, fun _ => ?_⟩, ⟨fun _ => h, fun _ => ?_⟩, fun _ => ⟨e1, e2⟩⟩
    · simp only [MemOutcome.failed, e1]
    · simp only [MemOutcome.failed, e2]
  · have hin : offset + 3 < r.data.length := by omega
    have h32 : offset + 3 < 2 ^ 32 := by omega
    refine ⟨⟨fun hf => ?_, fun hc => absurd hc h⟩, ⟨fun hf => ?_, fun hc => absurd hc h⟩,
      fun hc => absurd hc h⟩
    · rw [Ram.load32_of_lt r offset hin h32] at hf
      simp [MemOutcome.failed] at hf
    · rw [Ram.store32_of_lt r offset v hin h32] at hf
      simp [MemOutcome.failed] at hf

/-- C5 at the edges: the last three offsets of the memory and the two
largest 32-bit offsets fail for both operations, the offset `0x200000 - 4`
does not. -/
theorem c5_out_of_bounds_witness :
    (Ram.load32 NewRam 0x1FFFFD).failed = true ∧
    (Ram.store32 NewRam 0x1FFFFF 7).failed = true ∧
    (Ram.load32 NewRam 0xFFFFFFFF).failed = true ∧
    (Ram.store32 NewRam 0xFFFFFFFD 7).failed = true ∧
    (Ram.load32 NewRam 0xFFFFFFFF).result =
      Except.error (Panic.indexOutOfRange 0xFFFFFFFF 0x200000) ∧
    ¬ (Ram.load32 NewRam 0x1FFFFC).failed = true :=
  ⟨(c5_out_of_bounds NewRam 0x1FFFFD 0 NewRam_length (by decide)).1.mpr (by decide),
   (c5_out_of_bounds NewRam 0x1FFFFF 7 NewRam_length (by decide)).2.1.mpr (by decide),
   (c5_out_of_bounds NewRam 0xFFFFFFFF 0 NewRam_length (by decide)).1.mpr (by decide),
   (c5_out_of_bounds NewRam 0xFFFFFFFD 7 NewRam_length (by decide)).2.1.mpr (by decide),
   ((c5_out_of_bounds NewRam 0xFFFFFFFF 0 NewRam_length (by decide)).2.2 (by decide)).1,
   fun hf => absurd ((c5_out_of_bounds NewRam 0x1FFFFC 0 NewRam_length
      (by decide)).1.mp hf) (by decide)⟩

/-- C9: `NewRam` takes no input and is a fixed value: any two results of it
have exactly `0x200000` bytes, the same byte at every position, and `0xCA`
in `data[0]`. -/
theorem c9_NewRam_deterministic (r1 r2 : Ram) (h1 : r1 = NewRam) (h2 : r2 = NewRam) :
    r1.data.length = 0x200000 ∧ r2.data.length = 0x200000 ∧
    (∀ k : Nat, r1.data[k]? = r2.data[k]?) ∧
    r1.data[0]? = some 0xCA ∧ r2.data[0]? = some 0xCA := by
  subst h1 h2
  exact ⟨NewRam_length, NewRam_length, fun _ => rfl, NewRam_head, NewRam_head⟩

/-- C9 at the two results `NewRam` and `NewRam`. -/
theorem c9_NewRam_deterministic_witness :
    NewRam.data.length = 0x200000 ∧ NewRam.data.length = 0x200000 ∧
    (∀ k : Nat, NewRam.data[k]? = NewRam.data[k]?) ∧
    NewRam.data[0]? = some 0xCA ∧ NewRam.data[0]? = some 0xCA :=
  c9_NewRam_deterministic NewRam NewRam rfl rfl

/-! ## Further lemmas: general purpose registers -/

/-- An index above 31 selects the default case of `SetReg`: one warn-level
report, then `reg.zero = 0`. -/
theorem Registers.SetReg_default (reg : Registers) (index val : Nat) (h : 31 < index) :
    Registers.SetReg reg index val =
      { state := { reg with zero := 0 },
        diags := [{ level := Level.warn, format := "Unknown register index %v\n",
                    args := [index] }],
        result := some () } := by
  have hsw : Registers.SetReg.switch reg index val =
      (reg, [{ level := Level.warn, format := "Unknown register index %v\n",
               args := [index] }], false) := by
    unfold Registers.SetReg.switch
    split <;> first | omega | rfl
  rw [Registers.SetReg_eq, hsw]

/-- At an index up to 31 `GetReg` returns the element of the field array at
that index, reports nothing and leaves the state as it was. -/
theorem Registers.GetReg_eq_toArray (reg : Registers) (j : Nat) (h : j ≤ 31) :
    Registers.GetReg reg j =
      { state := reg, diags := [], result := some (reg.toArray.arr.getD j 0) } := by
  interval_cases j <;> rfl

/-- One `SetReg` on the fields is one write of the array model on the field
array. -/
theorem Registers.toArray_SetReg (reg : Registers) (i v : Nat) :
    (Registers.SetReg reg i v).state.toArray = ArrayRegisters.set reg.toArray i v := by
  by_cases h : i ≤ 31
  · rw [Registers.SetReg_eq]
    interval_cases i <;> rfl
  · rw [Registers.SetReg_default reg i v (by omega)]
    simp only [ArrayRegisters.set, show ¬ (1 ≤ i ∧ i ≤ 31) by omega, if_false]
    rfl

/-- The array model's write leaves every element other than 0 and the
written one as it was. -/
theorem ArrayRegisters.set_getD_of_ne (a : ArrayRegisters) (i v j : Nat) (hj0 : j ≠ 0)
    (hji : j ≠ i) : (ArrayRegisters.set a i v).arr.getD j 0 = a.arr.getD j 0 := by
  unfold ArrayRegisters.set
  simp only [List.getD_eq_getElem?_getD]
  rw [List.getElem?_set_ne (fun h => hj0 h.symm)]
  split_ifs
  · rw [List.getElem?_set_ne (fun h => hji h.symm)]
  · rfl

/-- A sequence of `SetReg` calls on the fields is the same sequence of
writes of the array model on the field array. -/
theorem Registers.toArray_run (calls : List (Nat × Nat)) :
    ∀ reg : Registers,
      (Registers.run reg calls).toArray = ArrayRegisters.run reg.toArray calls := by
  induction calls with
  | nil => intro reg; rfl
  | cons call rest ih =>
    intro reg
    obtain ⟨index, val⟩ := call
    show (Registers.run (Registers.SetReg reg index val).state rest).toArray =
      ArrayRegisters.run (ArrayRegisters.set reg.toArray index val) rest
    rw [ih, Registers.toArray_SetReg]

/-! ## Further theorems: general purpose registers -/

/-- C11: for every register state, every index above 31 and every value,
`SetReg` returns (it does not abort), makes exactly one warn-level report,
and `GetReg j` gives afterwards what it gave before for every `j` from 1 to
31. -/
theorem c11_set_out_of_range (reg : Registers) (index v : Nat) (h : 31 < index) :
    (Registers.SetReg reg index v).result = some () ∧
    (Registers.SetReg reg index v).diags =
      [{ level := Level.warn, format := "Unknown register index %v\n", args := [index] }] ∧
    ∀ j, 1 ≤ j → j ≤ 31 →
      (Registers.GetReg (Registers.SetReg reg index v).state j).result =
        (Registers.GetReg reg j).result := by
  refine ⟨?_, ?_, fun j h1 h31 => ?_⟩
  · rw [Registers.SetReg_default reg index v h]
  · rw [Registers.SetReg_default reg index v h]
  · rw [Registers.GetReg_eq_toArray _ j h31, Registers.GetReg_eq_toArray reg j h31,
      Registers.toArray_SetReg,
      ArrayRegisters.set_getD_of_ne _ index v j (by omega) (by omega)]

/-- C11 at index 32 on a register file holding values: `SetReg 32 5` returns,
reports once, and registers 4 and 31 read as before. -/
theorem c11_set_out_of_range_witness :
    (Registers.SetReg { Registers.init with a0 := 100, ra := 8 } 32 5).result = some () ∧
    (Registers.GetReg
      (Registers.SetReg { Registers.init with a0 := 100, ra := 8 } 32 5).state 4).result =
      some 100 ∧
    (Registers.GetReg
      (Registers.SetReg { Registers.init with a0 := 100, ra := 8 } 32 5).state 31).result =
      some 8 :=
  have h := c11_set_out_of_range { Registers.init with a0 := 100, ra := 8 } 32 5 (by decide)
  ⟨h.1, h.2.2 4 (by decide) (by decide), h.2.2 31 (by decide) (by decide)⟩

/-- C12: for every register state, every target index `i` from 0 to 31 and
every value, `SetReg i v` leaves what `GetReg j` returns unchanged for every
`j` from 1 to 31 other than `i`; with `i = 0` that is every register from 1
to 31. -/
theorem c12_set_frame (reg : Registers) (i v j : Nat) (_hi : i ≤ 31) (h1 : 1 ≤ j)
    (h31 : j ≤ 31) (hne : j ≠ i) :
    (Registers.GetReg (Registers.SetReg reg i v).state j).result =
      (Registers.GetReg reg j).result := by
  rw [Registers.GetReg_eq_toArray _ j h31, Registers.GetReg_eq_toArray reg j h31,
    Registers.toArray_SetReg, ArrayRegisters.set_getD_of_ne _ i v j (by omega) hne]

/-- C12 on a register file holding values: `SetReg 0 999` leaves register
4 at 100, and `SetReg 5 7` leaves registers 4 and 31 as they were. -/
theorem c12_set_frame_witness :
    (Registers.GetReg
      (Registers.SetReg { Registers.init with a0 := 100, ra := 8 } 0 999).state 4).result =
      (Registers.GetReg { Registers.init with a0 := 100, ra := 8 } 4).result ∧
    (Registers.GetReg
      (Registers.SetReg { Registers.init with a0 := 100, ra := 8 } 5 7).state 4).result =
      (Registers.GetReg { Registers.init with a0 := 100, ra := 8 } 4).result ∧
    (Registers.GetReg
      (Registers.SetReg { Registers.init with a0 := 100, ra := 8 } 5 7).state 31).result =
      (Registers.GetReg { Registers.init with a0 := 100, ra := 8 } 31).result :=
  ⟨c12_set_frame { Registers.init with a0 := 100, ra := 8 } 0 999 4 (by decide) (by decide)
     (by decide) (by decide),
   c12_set_frame { Registers.init with a0 := 100, ra := 8 } 5 7 4 (by decide) (by decide)
     (by decide) (by decide),
   c12_set_frame { Registers.init with a0 := 100, ra := 8 } 5 7 31 (by decide) (by decide)
     (by decide) (by decide)⟩

/-- C15: starting from the all-zero register file and the all-zero array,
after the same sequence of writes a read at any index returns the same value
from the per-field `SetReg` / `GetReg` and from the array model. -/
theorem c15_array_model_equivalent (calls : List (Nat × Nat)) (index : Nat) :
    (Registers.GetReg (Registers.run Registers.init calls) index).result =
      some (ArrayRegisters.get (ArrayRegisters.run ArrayRegisters.init calls) index) := by
  have hinit : Registers.init.toArray = ArrayRegisters.init := rfl
  by_cases h : index ≤ 31
  · rw [Registers.GetReg_eq_toArray _ index h, Registers.toArray_run, hinit]
    simp only [ArrayRegisters.get, if_pos h]
  · rw [Registers.GetReg_default _ index (by omega),
      Registers.run_zero calls Registers.init rfl]
    simp only [ArrayRegisters.get, if_neg h]

/-! ## Further lemmas: coprocessor zero registers -/

/-- No case of `SetReg` assigns `badVaddr` or `prid`. -/
theorem CopZeroRegisters.SetReg_read_only (c : CopZeroRegisters) (index val : Nat) :
    (CopZeroRegisters.SetReg c index val).state.badVaddr = c.badVaddr ∧
    (CopZeroRegisters.SetReg c index val).state.prid = c.prid := by
  unfold CopZeroRegisters.SetReg
  split <;> exact ⟨rfl, rfl⟩

/-- A sequence of `SetReg` calls that runs to its end leaves `badVaddr` and
`prid` as they were at the start. -/
theorem CopZeroRegisters.run_read_only (calls : List (Nat × Nat)) :
    ∀ c0 c : CopZeroRegisters, CopZeroRegisters.run c0 calls = some c →
      c.badVaddr = c0.badVaddr ∧ c.prid = c0.prid := by
  induction calls with
  | nil =>
    intro c0 c h
    simp only [CopZeroRegisters.run, Option.some.injEq] at h
    subst h
    exact ⟨rfl, rfl⟩
  | cons call rest ih =>
    intro c0 c h
    obtain ⟨index, val⟩ := call
    unfold CopZeroRegisters.run at h
    split at h
    · exact absurd h (by simp)
    · obtain ⟨h8, h15⟩ := ih _ c h
      obtain ⟨g8, g15⟩ := CopZeroRegisters.SetReg_read_only c0 index val
      exact ⟨h8.trans g8, h15.trans g15⟩

/-- The value and name `GetReg` returns at each recognised index. -/
theorem CopZeroRegisters.GetReg_result (c : CopZeroRegisters) :
    (CopZeroRegisters.GetReg c 3).result = some (c.bpc, "BPC") ∧
    (CopZeroRegisters.GetReg c 5).result = some (c.bda, "BDA") ∧
    (CopZeroRegisters.GetReg c 6).result = some (c.jumpDest, "JUMPDEST") ∧
    (CopZeroRegisters.GetReg c 7).result = some (c.dcic, "DCIC") ∧
    (CopZeroRegisters.GetReg c 8).result = some (c.badVaddr, "BadVaddr") ∧
    (CopZeroRegisters.GetReg c 9).result = some (c.bdam, "BDAM") ∧
    (CopZeroRegisters.GetReg c 11).result = some (c.bpcm, "BPCM") ∧
    (CopZeroRegisters.GetReg c 12).result = some (c.sr, "SR") ∧
    (CopZeroRegisters.GetReg c 13).result = some (c.cause, "CAUSE") ∧
    (CopZeroRegisters.GetReg c 14).result = some (c.epc, "EPC") ∧
    (CopZeroRegisters.GetReg c 15).result = some (c.prid, "PRID") :=
  ⟨rfl, rfl, rfl, rfl, rfl, rfl, rfl, rfl, rfl, rfl, rfl⟩

/-! ## Further theorems: coprocessor zero registers -/

/-- C17: in every state reached from the zero-initialised coprocessor
registers by a sequence of `SetReg` calls that all return (any recognised
index, any value), `GetReg 8` returns `(0, "BadVaddr")` and `GetReg 15`
returns `(0, "PRID")`, both without a report and without changing the
state. -/
theorem c17_read_only_never_written (calls : List (Nat × Nat)) (c : CopZeroRegisters)
    (h : CopZeroRegisters.run CopZeroRegisters.init calls = some c) :
    CopZeroRegisters.GetReg c 8 =
      { state := c, diags := [], result := some (0, "BadVaddr") } ∧
    CopZeroRegisters.GetReg c 15 =
      { state := c, diags := [], result := some (0, "PRID") } := by
  obtain ⟨h8, h15⟩ := CopZeroRegisters.run_read_only calls CopZeroRegisters.init c h
  have e8 : c.badVaddr = 0 := h8
  have e15 : c.prid = 0 := h15
  constructor
  · show ({ state := c, diags := [], result := some (c.badVaddr, "BadVaddr") } :
      Outcome CopZeroRegisters (Nat × String)) = _
    rw [e8]
  · show ({ state := c, diags := [], result := some (c.prid, "PRID") } :
      Outcome CopZeroRegisters (Nat × String)) = _
    rw [e15]

/-- C17 after writes to SR, to both read-only registers and to EPC: the
run reaches a state, and there `GetReg 8` and `GetReg 15` still return 0. -/
theorem c17_read_only_never_written_witness :
    CopZeroRegisters.run CopZeroRegisters.init [(12, 5), (8, 7), (15, 9), (14, 3)] =
      some { CopZeroRegisters.init with sr := 5, epc := 3 } ∧
    (CopZeroRegisters.GetReg { CopZeroRegisters.init with sr := 5, epc := 3 } 8).result =
      some (0, "BadVaddr") ∧
    (CopZeroRegisters.GetReg { CopZeroRegisters.init with sr := 5, epc := 3 } 15).result =
      some (0, "PRID") :=
  have h := c17_read_only_never_written [(12, 5), (8, 7), (15, 9), (14, 3)]
    { CopZeroRegisters.init with sr := 5, epc := 3 } rfl
  ⟨rfl, congrArg Outcome.result h.1, congrArg Outcome.result h.2⟩

/-- C19: for every state, every writable index `i` (3, 5, 6, 7, 9, 11, 12,
13, 14) and every value, `SetReg i v` changes only the register at `i`: for
every other recognised index `j`, `GetReg j` returns the same value and name
after the write as before it. -/
theorem c19_writable_set_frame (c : CopZeroRegisters) (i v j : Nat) (name : String)
    (hi : (i, name) ∈ CopZeroRegisters.writable) (hj : j ∈ CopZeroRegisters.recognised)
    (hne : j ≠ i) :
    (CopZeroRegisters.GetReg (CopZeroRegisters.SetReg c i v).state j).result =
      (CopZeroRegisters.GetReg c j).result := by
  obtain ⟨g3, g5, g6, g7, g8, g9, g11, g12, g13, g14, g15⟩ :=
    CopZeroRegisters.GetReg_result (CopZeroRegisters.SetReg c i v).state
  obtain ⟨k3, k5, k6, k7, k8, k9, k11, k12, k13, k14, k15⟩ :=
    CopZeroRegisters.GetReg_result c
  simp only [CopZeroRegisters.writable, List.mem_cons, List.mem_singleton, Prod.mk.injEq,
    List.not_mem_nil, or_false] at hi
  simp only [CopZeroRegisters.recognised, List.mem_cons, List.mem_singleton,
    List.not_mem_nil, or_false] at hj
  rcases hi with hi | hi | hi | hi | hi | hi | hi | hi | hi <;> obtain ⟨rfl, rfl⟩ := hi <;>
    rcases hj with hj | hj | hj | hj | hj | hj | hj | hj | hj | hj | hj <;> subst hj <;>
    first
      | exact absurd rfl hne
      | (simp only [g3, g5, g6, g7, g8, g9, g11, g12, g13, g14, g15,
          k3, k5, k6, k7, k8, k9, k11, k12, k13, k14, k15]; rfl)

/-- C19 for a write to SR (index 12) on a state holding values: CAUSE, EPC
and BadVaddr read as before. -/
theorem c19_writable_set_frame_witness :
    (CopZeroRegisters.GetReg
      (CopZeroRegisters.SetReg { CopZeroRegisters.init with cause := 4, epc := 6 }
        12 0x401).state 13).result = some (4, "CAUSE") ∧
    (CopZeroRegisters.GetReg
      (CopZeroRegisters.SetReg { CopZeroRegisters.init with cause := 4, epc := 6 }
        12 0x401).state 14).result = some (6, "EPC") ∧
    (CopZeroRegisters.GetReg
      (CopZeroRegisters.SetReg { CopZeroRegisters.init with cause := 4, epc := 6 }
        12 0x401).state 8).result = some (0, "BadVaddr") :=
  ⟨c19_writable_set_frame { CopZeroRegisters.init with cause := 4, epc := 6 } 12 0x401 13
     "SR" (by decide) (by decide) (by decide),
   c19_writable_set_frame { CopZeroRegisters.init with cause := 4, epc := 6 } 12 0x401 14
     "SR" (by decide) (by decide) (by decide),
   c19_writable_set_frame { CopZeroRegisters.init with cause := 4, epc := 6 } 12 0x401 8
     "SR" (by decide) (by decide) (by decide)⟩

/-! ## Further lemmas: `NewRam` -/

/-- One pass of the loop copies the bytes below the counter to the
positions from `i` up to `2 * i`, as far as the buffer reaches. -/
theorem NewRam.pass_get_of_ge (data : List Nat) (i k : Nat) (hik : i ≤ k)
    (hk : k < i * 2) (hlen : k < data.length) :
    (data.take i ++ copy (data.drop i) (data.take i))[k]? = data[k - i]? := by
  rw [List.getElem?_append_right (by rw [List.length_take]; omega)]
  have hmin : min i data.length = i := by omega
  simp only [List.length_take, hmin, copy, List.length_drop]
  rw [List.getElem?_append_left (by simp only [List.length_take]; omega),
    List.getElem?_take_of_lt (by omega), List.getElem?_take_of_lt (by omega)]

/-- If the bytes below the counter all hold `c` when the loop is entered,
every byte of the buffer holds `c` when it ends. -/
theorem NewRam.loop_fills (c : Nat) (data : List Nat) (i : Nat) (hi : 0 < i) :
    (∀ k, k < i → k < data.length → data[k]? = some c) →
    ∀ k, k < data.length → (NewRam.loop data i hi)[k]? = some c := by
  induction data, i, hi using NewRam.loop.induct with
  | case1 data i hi h ih =>
    intro hpre k hk
    rw [NewRam.loop, dif_pos h]
    refine ih (fun j hj hjlen => ?_) k (by rw [NewRam.pass_length data i h]; exact hk)
    rw [NewRam.pass_length data i h] at hjlen
    by_cases hji : j < i
    · rw [NewRam.pass_get_of_lt data i j hji h]
      exact hpre j hji hjlen
    · rw [NewRam.pass_get_of_ge data i j (by omega) hj hjlen]
      exact hpre (j - i) (by omega) (by omega)
  | case2 data i hi h =>
    intro hpre k hk
    rw [NewRam.loop, dif_neg h]
    exact hpre k (by omega) hk

/-- Every byte of `NewRam` is `0xca`. -/
theorem NewRam_get (k : Nat) (h : k < 0x200000) : NewRam.data[k]? = some 0xca := by
  unfold NewRam
  refine NewRam.loop_fills 0xca _ 1 (by decide) (fun j hj hjlen => ?_) k ?_
  · have hj0 : j = 0 := by omega
    subst hj0
    exact List.getElem?_set_self (by rw [List.length_replicate]; decide)
  · rw [List.length_set, List.length_replicate]
    exact h

/-- The bytes of `NewRam` are `uint8` values. -/
theorem NewRam_bytesOk : NewRam.bytesOk := by
  intro b hb
  obtain ⟨k, hk, hkb⟩ := List.getElem_of_mem hb
  have h1 : NewRam.data[k]? = some b := by rw [List.getElem?_eq_getElem hk, hkb]
  rw [NewRam_get k (by rw [← NewRam_length]; exact hk)] at h1
  injection h1 with h1
  omega

/-! ## Further theorems: `NewRam` -/

/-- C14: the doubling-copy loop of `NewRam` ends (`NewRam.loop` is a total
function, its recursion being well founded on `len(data) - i`) and fills the
whole buffer: every byte `data[k]` with `k < 0x200000` is `0xCA`. -/
theorem c14_NewRam_filled (k : Nat) (h : k < 0x200000) : NewRam.data[k]? = some 0xCA :=
  NewRam_get k h

/-- C14 at the last byte and at a position that is not a power of two. -/
theorem c14_NewRam_filled_witness :
    NewRam.data[0x1FFFFF]? = some 0xCA ∧ NewRam.data[0x12345]? = some 0xCA :=
  ⟨c14_NewRam_filled 0x1FFFFF (by decide), c14_NewRam_filled 0x12345 (by decide)⟩

/-! ## Further lemmas: memory -/

/-- Reading a memory of `uint8` values gives a `uint8` value. -/
theorem Ram.bytesOk_getD (r : Ram) (hb : r.bytesOk) (k : Nat) : r.data.getD k 0 < 256 := by
  by_cases hk : k < r.data.length
  · rw [List.getD_eq_getElem _ _ hk]
    exact hb _ (List.getElem_mem hk)
  · rw [List.getD_eq_default _ _ (by omega)]
    decide

/-- What the four assignments leave at each position, whether or not their
indices are below the length (an assignment `List.set` at an index that is
not below the length changes nothing). -/
theorem stored_get_any (data : List Nat) (offset val j : Nat) :
    (stored data offset val)[j]? =
      if j = offset ∧ j < data.length then some (val % 256)
      else if j = offset + 1 ∧ j < data.length then some (val / 2 ^ 8 % 256)
      else if j = offset + 2 ∧ j < data.length then some (val / 2 ^ 16 % 256)
      else if j = offset + 3 ∧ j < data.length then some (val / 2 ^ 24 % 256)
      else data[j]? := by
  simp only [stored, List.getElem?_set, List.length_set]
  split_ifs <;> first | rfl | omega | (symm; apply List.getElem?_eq_none; omega)

/-- The memory `store32` leaves, whether it returns or panics: the
assignments whose index is below the length have been made. -/
theorem Ram.store32_ram (r : Ram) (offset val : Nat) (h32 : offset < 2 ^ 32)
    (hlen : r.data.length + 3 ≤ 2 ^ 32) :
    (Ram.store32 r offset val).ram = { data := stored r.data offset val } := by
  unfold Ram.store32
  rw [utils.Uint32ToBytes_eq]
  simp only
  rw [u32_of_lt (show offset + 0 < 2 ^ 32 by omega)]
  by_cases h0 : r.data.length ≤ offset
  · rw [sliceSet_of_le _ (by omega)]
    refine congrArg Ram.mk (List.ext_getElem? fun j => ?_)
    rw [stored_get_any]
    split_ifs <;> first | rfl | omega
  · rw [sliceSet_of_lt _ (show offset + 0 < r.data.length by omega)]
    simp only
    rw [u32_of_lt (show offset + 1 < 2 ^ 32 by omega)]
    by_cases h1 : r.data.length ≤ offset + 1
    · rw [sliceSet_of_le _ (by rw [List.length_set]; exact h1)]
      refine congrArg Ram.mk (List.ext_getElem? fun j => ?_)
      rw [stored_get_any]
      simp only [List.getElem?_set, Nat.add_zero]
      split_ifs <;> first | rfl | omega
    · rw [sliceSet_of_lt _ (by rw [List.length_set]; omega)]
      simp only
      rw [u32_of_lt (show offset + 2 < 2 ^ 32 by omega)]
      by_cases h2 : r.data.length ≤ offset + 2
      · rw [sliceSet_of_le _ (by simp only [List.length_set]; exact h2)]
        refine congrArg Ram.mk (List.ext_getElem? fun j => ?_)
        rw [stored_get_any]
        simp only [List.getElem?_set, List.length_set, Nat.add_zero]
        split_ifs <;> first | rfl | omega
      · rw [sliceSet_of_lt _ (by simp only [List.length_set]; omega)]
        simp only
        rw [u32_of_lt (show offset + 3 < 2 ^ 32 by omega)]
        by_cases h3 : r.data.length ≤ offset + 3
        · rw [sliceSet_of_le _ (by simp only [List.length_set]; exact h3)]
          refine congrArg Ram.mk (List.ext_getElem? fun j => ?_)
          rw [stored_get_any]
          simp only [List.getElem?_set, List.length_set, Nat.add_zero]
          split_ifs <;> first | rfl | omega
        · rw [sliceSet_of_lt _ (by simp only [List.length_set]; omega)]
          simp only [stored, Nat.add_zero]

/-- Reading a position the four assignments do not reach gives what was
there before. -/
theorem stored_getD_of_outside (data : List Nat) (offset val j : Nat)
    (h : j < offset ∨ offset + 3 < j) :
    (stored data offset val).getD j 0 = data.getD j 0 := by
  simp only [List.getD_eq_getElem?_getD, stored_get_any]
  split_ifs <;> first | rfl | omega

/-- Every byte of `NewRam`, read with a default, is `0xca`. -/
theorem NewRam_getD (k : Nat) (h : k < 0x200000) : NewRam.data.getD k 0 = 0xca := by
  rw [List.getD_eq_getElem?_getD, NewRam_get k h]
  rfl

/-! ## Further theorems: memory -/

/-- C13: on a memory of `0x200000` bytes (`uint8` values), for every offset
with `offset + 3 < 0x200000`, `load32 offset` returns
`data[offset] + data[offset+1] * 2^8 + data[offset+2] * 2^16 +
data[offset+3] * 2^24` and leaves the memory unchanged. -/
theorem c13_load32_little_endian (r : Ram) (offset : Nat) (hb : r.bytesOk)
    (hlen : r.data.length = 0x200000) (ho : offset + 3 < 0x200000) :
    Ram.load32 r offset =
      { ram := r,
        result := Except.ok (r.data.getD offset 0 + r.data.getD (offset + 1) 0 * 2 ^ 8 +
          r.data.getD (offset + 2) 0 * 2 ^ 16 + r.data.getD (offset + 3) 0 * 2 ^ 24) } := by
  rw [Ram.load32_of_lt r offset (by omega) (by omega),
    utils.BytesToUint32_eq_sum (Ram.bytesOk_getD r hb _) (Ram.bytesOk_getD r hb _)
      (Ram.bytesOk_getD r hb _) (Ram.bytesOk_getD r hb _)]

/-- C13 on the memory `NewRam` builds, at the unaligned offset 5: the four
bytes `0xCA` are joined to `0xCACACACA`, and the memory is `NewRam` still. -/
theorem c13_load32_little_endian_witness :
    Ram.load32 NewRam 5 = { ram := NewRam, result := Except.ok 0xCACACACA } := by
  have h := c13_load32_little_endian NewRam 5 NewRam_bytesOk NewRam_length (by decide)
  rw [NewRam_getD 5 (by decide), NewRam_getD (5 + 1) (by decide),
    NewRam_getD (5 + 2) (by decide), NewRam_getD (5 + 3) (by decide)] at h
  exact h

/-- C16: on a memory of `0x200000` bytes, for every offset with
`offset + 3 < 0x200000` and every value, `store32 offset v` leaves the length
of `data` and every byte `data[k]` with `k < offset` or `k > offset + 3`
unchanged; hence `load32` at an in-bounds offset `o2` at distance 4 or more
from `offset` gives the same outcome's result after the store as before. -/
theorem c16_store32_frame (r : Ram) (offset v : Nat)
    (hlen : r.data.length = 0x200000) (ho : offset + 3 < 0x200000) :
    (Ram.store32 r offset v).ram.data.length = r.data.length ∧
    (∀ k : Nat, k < offset ∨ offset + 3 < k →
      (Ram.store32 r offset v).ram.data[k]? = r.data[k]?) ∧
    (∀ o2 : Nat, o2 + 3 < 0x200000 → o2 + 4 ≤ offset ∨ offset + 4 ≤ o2 →
      (Ram.load32 (Ram.store32 r offset v).ram o2).result = (Ram.load32 r o2).result) := by
  rw [Ram.store32_of_lt r offset v (by omega) (by omega)]
  refine ⟨stored_length r.data offset v, fun k hk => ?_, fun o2 ho2 hd => ?_⟩
  · show (stored r.data offset v)[k]? = r.data[k]?
    rw [stored_get_any]
    split_ifs <;> first | rfl | omega
  · rw [Ram.load32_of_lt _ o2 (by rw [stored_length]; omega) (by omega),
      Ram.load32_of_lt r o2 (by omega) (by omega)]
    show Except.ok _ = Except.ok _
    rw [stored_getD_of_outside r.data offset v o2 (by omega),
      stored_getD_of_outside r.data offset v (o2 + 1) (by omega),
      stored_getD_of_outside r.data offset v (o2 + 2) (by omega),
      stored_getD_of_outside r.data offset v (o2 + 3) (by omega)]

/-- C16 on the memory `NewRam` builds: after `store32 0x10 0xDEADBEEF` the
length is as before, the bytes at `0xF` and `0x14` are as before, and
`load32` at `0xC` and at `0x14` reads what it read before. -/
theorem c16_store32_frame_witness :
    (Ram.store32 NewRam 0x10 0xDEADBEEF).ram.data.length = NewRam.data.length ∧
    (Ram.store32 NewRam 0x10 0xDEADBEEF).ram.data[0xF]? = NewRam.data[0xF]? ∧
    (Ram.store32 NewRam 0x10 0xDEADBEEF).ram.data[0x14]? = NewRam.data[0x14]? ∧
    (Ram.load32 (Ram.store32 NewRam 0x10 0xDEADBEEF).ram 0xC).result =
      (Ram.load32 NewRam 0xC).result ∧
    (Ram.load32 (Ram.store32 NewRam 0x10 0xDEADBEEF).ram 0x14).result =
      (Ram.load32 NewRam 0x14).result :=
  have h := c16_store32_frame NewRam 0x10 0xDEADBEEF NewRam_length (by decide)
  ⟨h.1, h.2.1 0xF (by decide), h.2.1 0x14 (by decide),
   h.2.2 0xC (by decide) (by decide), h.2.2 0x14 (by decide) (by decide)⟩

/-- C18, as stated, fails: on the memory `NewRam` builds, `store32` at
`0x1FFFFD` (the third last byte) with value `0x12345678` panics at index
`0x200000`, and by then the last three bytes, `0xCA` before, hold `0x78`,
`0x56`, `0x34`. -/
theorem c18_counterexample :
    (Ram.store32 NewRam 0x1FFFFD 0x12345678).result =
      Except.error (Panic.indexOutOfRange 0x200000 0x200000) ∧
    (NewRam.data[0x1FFFFD]? = some 0xCA ∧ NewRam.data[0x1FFFFE]? = some 0xCA ∧
      NewRam.data[0x1FFFFF]? = some 0xCA) ∧
    ((Ram.store32 NewRam 0x1FFFFD 0x12345678).ram.data[0x1FFFFD]? = some 0x78 ∧
      (Ram.store32 NewRam 0x1FFFFD 0x12345678).ram.data[0x1FFFFE]? = some 0x56 ∧
      (Ram.store32 NewRam 0x1FFFFD 0x12345678).ram.data[0x1FFFFF]? = some 0x34) ∧
    (Ram.store32 NewRam 0x1FFFFD 0x12345678).ram.data ≠ NewRam.data := by
  have hres := Ram.store32_of_le NewRam 0x1FFFFD 0x12345678 (by decide)
    (by rw [NewRam_length]; decide) (le_of_eq NewRam_length)
  rw [NewRam_length] at hres
  have hram := Ram.store32_ram NewRam 0x1FFFFD 0x12345678 (by decide)
    (by rw [NewRam_length]; decide)
  have hd : (Ram.store32 NewRam 0x1FFFFD 0x12345678).ram.data[0x1FFFFD]? = some 0x78 := by
    rw [hram]
    show (stored NewRam.data 0x1FFFFD 0x12345678)[0x1FFFFD]? = some 0x78
    rw [stored_get_any, NewRam_length]
    rfl
  have he : (Ram.store32 NewRam 0x1FFFFD 0x12345678).ram.data[0x1FFFFE]? = some 0x56 := by
    rw [hram]
    show (stored NewRam.data 0x1FFFFD 0x12345678)[0x1FFFFE]? = some 0x56
    rw [stored_get_any, NewRam_length]
    rfl
  have hf : (Ram.store32 NewRam 0x1FFFFD 0x12345678).ram.data[0x1FFFFF]? = some 0x34 := by
    rw [hram]
    show (stored NewRam.data 0x1FFFFD 0x12345678)[0x1FFFFF]? = some 0x34
    rw [stored_get_any, NewRam_length]
    rfl
  refine ⟨hres, ⟨NewRam_get _ (by decide), NewRam_get _ (by decide),
    NewRam_get _ (by decide)⟩, ⟨hd, he, hf⟩, fun heq => ?_⟩
  rw [heq, NewRam_get _ (by decide)] at hd
  exact absurd hd (by decide)

/-- C18, amended: on a memory of `0x200000` bytes, for every 32-bit offset
with `offset + 3 ≥ 0x200000` and every value, `store32` fails and leaves the
length of `data` and every byte below `offset` unchanged; when
`offset ≥ 0x200000` it leaves the whole memory unchanged. (For the offsets
`0x1FFFFD` to `0x1FFFFF` the bytes from `offset` to the end are not covered:
they are assigned before the panic.) -/
theorem c18_failing_store_frame (r : Ram) (offset v : Nat)
    (hlen : r.data.length = 0x200000) (ho : offset < 2 ^ 32)
    (hfail : 0x200000 ≤ offset + 3) :
    (Ram.store32 r offset v).failed = true ∧
    (Ram.store32 r offset v).ram.data.length = r.data.length ∧
    (∀ k : Nat, k < offset → (Ram.store32 r offset v).ram.data[k]? = r.data[k]?) ∧
    (0x200000 ≤ offset → (Ram.store32 r offset v).ram = r) := by
  have hres := Ram.store32_of_le r offset v ho (by omega) (by omega)
  have hram := Ram.store32_ram r offset v ho (by omega)
  refine ⟨?_, ?_, fun k hk => ?_, fun hge => ?_⟩
  · simp only [MemOutcome.failed, hres]
  · rw [hram]
    exact stored_length r.data offset v
  · rw [hram]
    show (stored r.data offset v)[k]? = r.data[k]?
    rw [stored_get_any]
    split_ifs <;> first | rfl | omega
  · rw [hram]
    refine congrArg Ram.mk (List.ext_getElem? fun j => ?_)
    rw [stored_get_any]
    split_ifs <;> first | rfl | omega

/-- C18 amended, on the memory `NewRam` builds: the failing `store32` at
`0x1FFFFD` leaves the byte at `0x1FFFFC` as it was, and the failing `store32`
at `0xFFFFFFFF` leaves the memory as it was. -/
theorem c18_failing_store_frame_witness :
    (Ram.store32 NewRam 0x1FFFFD 0x12345678).failed = true ∧
    (Ram.store32 NewRam 0x1FFFFD 0x12345678).ram.data[0x1FFFFC]? =
      NewRam.data[0x1FFFFC]? ∧
    (Ram.store32 NewRam 0xFFFFFFFF 0x12345678).ram = NewRam :=
  ⟨(c18_failing_store_frame NewRam 0x1FFFFD 0x12345678 NewRam_length (by decide)
      (by decide)).1,
   (c18_failing_store_frame NewRam 0x1FFFFD 0x12345678 NewRam_length (by decide)
      (by decide)).2.2.1 0x1FFFFC (by decide),
   (c18_failing_store_frame NewRam 0xFFFFFFFF 0x12345678 NewRam_length (by decide)
      (by decide)).2.2.2 (by decide)⟩

end psx
